import Mathlib

/-!
Shallow embedding of the TraceHawk X orchestration core: the module
registry, the phase-sequenced execution pipeline, the shared scan
results accumulator, the risk-scoring engine, and the post-scoring
summary aggregation pass.  Go `float64` arithmetic is embedded as exact
rational arithmetic (`ℚ`); Go `map[string]interface{}` side channels are
embedded as association lists of dynamically-typed values; fallible Go
calls return `Option GoErr` (with `none` standing for a `nil` error).
-/

namespace TraceHawkX

/-- A Go error value (`error`); embedded as its message string. -/
abbrev GoErr := String

/-- Dynamically-typed value stored in the free-form context and metadata
maps (`map[string]interface{}` in the source).  Only the `float64` case
is ever inspected through a type assertion by the scoring engine; every
other dynamic type is collapsed into `str`/`other`. -/
inductive GoValue where
  | float (q : ℚ)
  | str (s : String)
  | other
  deriving DecidableEq

/-- Association-list reading of a Go `map[string]interface{}` lookup:
`m[k]` together with its `ok` flag, as an `Option`. -/
def mapGet (m : List (String × GoValue)) (k : String) : Option GoValue :=
  (m.find? (fun p => p.1 == k)).map Prod.snd

/-- Scan-level side-channel context (`Scan.Context`), read through
`Scan.GetContext`. -/
abbrev Context := List (String × GoValue)

/-- PortResult from the source data model. -/
structure PortResult where
  port : ℤ
  protocol : String
  state : String
  service : String
  version : String
  deriving DecidableEq

/-- ServiceResult from the source data model. -/
structure ServiceResult where
  name : String
  version : String
  banner : String
  metadata : List (String × GoValue)
  deriving DecidableEq

/-- WebAppResult from the source data model. -/
structure WebAppResult where
  url : String
  statusCode : ℤ
  title : String
  technology : List String
  headers : List (String × String)
  endpoints : List String
  metadata : List (String × GoValue)
  deriving DecidableEq

/-- HostResult from the source data model. -/
structure HostResult where
  ip : String
  hostname : String
  ports : List PortResult
  services : List ServiceResult
  webApps : List WebAppResult
  deriving DecidableEq

/-- Vulnerability from the source data model. -/
structure Vulnerability where
  id : String
  name : String
  description : String
  severity : String
  cvss : ℚ
  cve : String
  host : String
  port : ℤ
  service : String
  url : String
  evidence : String
  poc : String
  references : List String
  riskScore : ℚ
  exploitable : Bool
  metadata : List (String × GoValue)
  deriving DecidableEq

/-- PatchRecommendation from the source data model. -/
structure PatchRecommendation where
  vulnID : String
  type : String
  language : String
  framework : String
  diff : String
  wafRule : String
  description : String
  confidence : ℚ
  deriving DecidableEq

/-- ScanSummary from the source data model.  The counters are Go `int`
fields that only ever count upward from zero, embedded as `ℕ`. -/
structure ScanSummary where
  totalHosts : ℕ
  aliveHosts : ℕ
  totalPorts : ℕ
  openPorts : ℕ
  totalVulns : ℕ
  criticalVulns : ℕ
  highVulns : ℕ
  mediumVulns : ℕ
  lowVulns : ℕ
  exploitableVulns : ℕ
  highRiskVulns : ℕ
  scanDuration : String
  riskScore : ℚ
  modulesExecuted : List String
  deriving DecidableEq

/-- ScanResults from the source data model: the Shared Results
accumulator. -/
structure ScanResults where
  hosts : List HostResult
  vulnerabilities : List Vulnerability
  patches : List PatchRecommendation
  bleedingEdge : List (String × GoValue)
  summary : ScanSummary
  deriving DecidableEq

/-- ScanConfig from the source data model. -/
structure ScanConfig where
  targets : List String
  output : String
  reportDir : String
  threads : ℤ
  rateLimit : ℤ
  deep : Bool
  bleedingEdge : Bool
  stealth : Bool
  aggressive : Bool
  noThrottle : Bool
  exclude : List String
  llmModel : String
  temperature : ℚ
  generatePatch : Bool
  shadowClone : String
  depDrift : Bool
  timingMap : Bool
  blueTeam : Bool
  deriving DecidableEq

/-! ### Risk scoring engine (internal/scoring/engine.go) -/

/-- Go `math.Round`: the nearest integer, with ties rounded away from
zero. -/
def goRound (q : ℚ) : ℤ :=
  if 0 ≤ q then ⌊q + 1/2⌋ else ⌈q - 1/2⌉

/-- The engine's final rounding step `math.Round(score*100) / 100`:
round to 2 decimal places with ties away from zero. -/
def round2 (q : ℚ) : ℚ := (goRound (q * 100) : ℚ) / 100

/-- Rounding to 2 decimal places with ties rounded up (towards `+∞`),
the reading of "round-half-up" used to compare against the engine. -/
def roundTiesUp2 (q : ℚ) : ℚ := ((⌊q * 100 + 1/2⌋ : ℤ) : ℚ) / 100

/-- The severity-weight table installed by `NewEngine`, read through Go
map indexing: a missing key yields the `float64` zero value `0`. -/
def severityWeightsGet (s : String) : ℚ :=
  if s = "critical" then 10
  else if s = "high" then 7.5
  else if s = "medium" then 5
  else if s = "low" then 2.5
  else if s = "info" then 1
  else 0

/-- Engine.exploitWeight as installed by `NewEngine`. -/
def exploitWeight : ℚ := 1.5

/-- Engine.driftWeight as installed by `NewEngine`. -/
def driftWeight : ℚ := 0.2

/-- Engine.llmWeight as installed by `NewEngine`. -/
def llmWeight : ℚ := 0.2

/-- Engine.CalculateRiskScore: per-vulnerability risk score.  The scan
argument is only read through `scan.GetContext`, so the embedding takes
the scan context directly. -/
def CalculateRiskScore (vuln : Vulnerability) (scanContext : Context) : ℚ :=
  let baseSeverity0 := severityWeightsGet vuln.severity
  let baseSeverity := if baseSeverity0 = 0 then 1 else baseSeverity0
  let exploitCoeff := if vuln.exploitable then exploitWeight else 1
  let driftFactor :=
    match mapGet scanContext "supply_chain_drift" with
    | some (GoValue.float drift) => 1 + drift * driftWeight
    | _ => 1
  let llmConfidence :=
    match mapGet vuln.metadata "llm_confidence" with
    | some (GoValue.float conf) => 0.8 + conf * llmWeight
    | _ => 1
  let score := baseSeverity * exploitCoeff * driftFactor * llmConfidence
  let capped := if score > 100 then 100 else score
  round2 capped

/-- Engine.CalculateOverallRiskScore: aggregate scan-level risk score
over the vulnerability list. -/
def CalculateOverallRiskScore (vulns : List Vulnerability) : ℚ :=
  if vulns.length = 0 then 0
  else
    let acc := vulns.foldl
      (fun (acc : ℚ × ℕ × ℕ) vuln =>
        ( acc.1 + vuln.riskScore
        , if vuln.severity = "critical" then acc.2.1 + 1 else acc.2.1
        , if vuln.severity = "high" then acc.2.2 + 1 else acc.2.2 ))
      (0, 0, 0)
    let avgScore := acc.1 / (vulns.length : ℚ)
    let criticalBonus := (acc.2.1 : ℚ) * 5
    let highBonus := (acc.2.2 : ℚ) * 2
    let overallScore := avgScore + criticalBonus + highBonus
    round2 (if overallScore > 100 then 100 else overallScore)

/-! ### Specification-side scoring definitions

These repeat the *claims'* wording (not the source) so the source
functions can be compared against them. -/

/-- Severity weight exactly as the claim words it: critical=10.0,
high=7.5, medium=5.0, low=2.5, info=1.0, any other severity=1.0. -/
def specSeverityWeight (s : String) : ℚ :=
  if s = "critical" then 10
  else if s = "high" then 7.5
  else if s = "medium" then 5
  else if s = "low" then 2.5
  else if s = "info" then 1
  else 1

/-- Per-vulnerability score as the claim words it, with the final
rounding read as "ties rounded up" (towards `+∞`). -/
def specRiskScoreTiesUp (vuln : Vulnerability) (scanContext : Context) : ℚ :=
  let drift : ℚ :=
    match mapGet scanContext "supply_chain_drift" with
    | some (GoValue.float d) => d
    | _ => 0
  let llm : ℚ :=
    match mapGet vuln.metadata "llm_confidence" with
    | some (GoValue.float c) => 0.8 + c * 0.2
    | _ => 1
  let raw := specSeverityWeight vuln.severity *
    (if vuln.exploitable then 1.5 else 1) * (1 + drift * 0.2) * llm
  roundTiesUp2 (if raw > 100 then 100 else raw)

/-- Per-vulnerability score as the claim words it, with the final
rounding taken as ties away from zero (which coincides with "ties
rounded up" on every nonnegative score). -/
def specRiskScore (vuln : Vulnerability) (scanContext : Context) : ℚ :=
  let drift : ℚ :=
    match mapGet scanContext "supply_chain_drift" with
    | some (GoValue.float d) => d
    | _ => 0
  let llm : ℚ :=
    match mapGet vuln.metadata "llm_confidence" with
    | some (GoValue.float c) => 0.8 + c * 0.2
    | _ => 1
  let raw := specSeverityWeight vuln.severity *
    (if vuln.exploitable then 1.5 else 1) * (1 + drift * 0.2) * llm
  round2 (if raw > 100 then 100 else raw)

/-- Aggregate score as the claim words it: 0 on the empty list,
otherwise mean of the risk-score fields plus 5 per "critical" label
plus 2 per "high" label, clamped at 100, rounded to 2 decimals. -/
def specOverallRiskScore (vulns : List Vulnerability) : ℚ :=
  if vulns = [] then 0
  else
    let avg := (vulns.map Vulnerability.riskScore).sum / (vulns.length : ℚ)
    let score := avg
      + 5 * ((vulns.filter (fun v => v.severity == "critical")).length : ℚ)
      + 2 * ((vulns.filter (fun v => v.severity == "high")).length : ℚ)
    round2 (min score 100)

/-! ### Module registry and module execution (modules package and
internal/core orchestrator) -/

/-- What a module's `Run` appends to the Shared Results through the
`AddHost` / `AddVulnerability` / `AddPatch` helpers.  The audit trail
(`Summary.ModulesExecuted`) is owned by the orchestrator, never written
by modules. -/
structure ModuleOutput where
  hosts : List HostResult
  vulns : List Vulnerability
  patches : List PatchRecommendation
  deriving DecidableEq

/-- A module as the orchestration core observes it through the Module
interface: its identity and metadata, the outcome of its
`Prerequisites` check, the outcome of its `Run`, and what `Run` appends
to the Shared Results.  `none` stands for a `nil` Go error. -/
structure Module where
  name : String
  description : String
  category : String
  author : String
  version : String
  prereqErr : Option GoErr
  runErr : Option GoErr
  output : ModuleOutput
  deriving DecidableEq

/-- The registry's name-to-module mapping (`Registry.modules`),
embedded as an association list. -/
abbrev Registry := List (String × Module)

/-- GetModule: retrieves a module by name; the `bool` found flag of the
source is the `Option`. -/
def GetModule (r : Registry) (name : String) : Option Module :=
  (r.find? (fun p => p.1 == name)).map Prod.snd

/-- Outcome of `Register`: either a `logrus.Fatalf` process abort or
the updated registry. -/
inductive RegisterResult where
  | fatal (msg : String)
  | ok (r : Registry)
  deriving DecidableEq

/-- Register: fails fatally when the module name is empty or already
present, otherwise inserts into the name-to-module mapping. -/
def Register (r : Registry) (m : Module) : RegisterResult :=
  let name := m.name
  if name = "" then RegisterResult.fatal "Module name cannot be empty"
  else if (GetModule r name).isSome then
    RegisterResult.fatal ("Module " ++ name ++ " already registered")
  else RegisterResult.ok (r ++ [(name, m)])

/-- GetModulesByCategory: modules filtered by category (map iteration
order determinized to registry order). -/
def GetModulesByCategory (r : Registry) (category : String) : List Module :=
  (r.map Prod.snd).filter (fun m => m.category == category)

/-- Go map insertion (last write wins) for the orchestrator's local
`moduleMap`. -/
def mapInsertModule (l : List (String × Module)) (k : String) (v : Module) :
    List (String × Module) :=
  (k, v) :: l.filter (fun p => !(p.1 == k))

/-- Lookup in the orchestrator's local `moduleMap`. -/
def moduleMapLookup (l : List (String × Module)) (k : String) : Option Module :=
  (l.find? (fun p => p.1 == k)).map Prod.snd

/-- The `moduleMap` built by `executeModules` from the category-filtered
registry view. -/
def moduleMapOf (r : Registry) (category : String) : List (String × Module) :=
  (GetModulesByCategory r category).foldl
    (fun acc m => mapInsertModule acc m.name m) []

/-- Appending a module's run output to the Shared Results. -/
def applyModuleOutput (res : ScanResults) (out : ModuleOutput) : ScanResults :=
  { res with
      hosts := res.hosts ++ out.hosts
      vulnerabilities := res.vulnerabilities ++ out.vulns
      patches := res.patches ++ out.patches }

/-- Orchestrator.executeModule: runs one module; a failing `Run` is
logged and deliberately converted to a `nil` return ("Don't fail entire
scan for single module failure"), and only a succeeding module's name
is appended to the `ModulesExecuted` audit trail. -/
def executeModule (m : Module) (res : ScanResults) : ScanResults × Option GoErr :=
  let res1 := applyModuleOutput res m.output
  match m.runErr with
  | some _ => (res1, none)
  | none =>
      ({ res1 with summary := { res1.summary with
            modulesExecuted := res1.summary.modulesExecuted ++ [m.name] } },
       none)

/-- Sequential rendering of the errgroup loop in
`Orchestrator.executeModules`: each surviving module is executed in
turn, and the first non-nil error (there is none, absent cancellation)
is returned as `g.Wait()` does. -/
def runModuleList (mods : List Module) (res : ScanResults) :
    ScanResults × Option GoErr :=
  match mods with
  | [] => (res, none)
  | m :: rest =>
    match executeModule m res with
    | (res1, some err) => (res1, some err)
    | (res1, none) => runModuleList rest res1

/-- The filtering loop of `Orchestrator.executeModules`: requested names
with no registered implementation in the category are dropped, and
resolved modules whose `Prerequisites` fail are skipped with a warning. -/
def resolveActiveModules (r : Registry) (moduleNames : List String)
    (category : String) : List Module :=
  moduleNames.filterMap (fun name =>
    match moduleMapLookup (moduleMapOf r category) name with
    | some m => if m.prereqErr.isSome then none else some m
    | none => none)

/-- Orchestrator.executeModules: resolve and filter the requested
modules, return `nil` as a logged no-op when none survive, otherwise
execute the survivors. -/
def executeModules (r : Registry) (moduleNames : List String)
    (category : String) (res : ScanResults) : ScanResults × Option GoErr :=
  let activeModules := resolveActiveModules r moduleNames category
  if activeModules.length = 0 then (res, none)
  else runModuleList activeModules res

/-- The bleeding-edge phase's module name list. -/
def bleedingModules : List String :=
  ["llm-fuzzer", "auto-patch", "shadow-clone", "dep-drift", "timing-map",
   "blue-team"]

/-- Orchestrator.runBleedingEdgePhase: an immediate successful no-op
unless the configuration's bleeding-edge flag is set. -/
def runBleedingEdgePhase (r : Registry) (config : ScanConfig)
    (res : ScanResults) : ScanResults × Option GoErr :=
  if !config.bleedingEdge then (res, none)
  else executeModules r bleedingModules "bleeding-edge" res

/-! ### Concrete scoring inputs used in closed statements -/

/-- A vulnerability with every field at its zero value, the base for
concrete test inputs. -/
def baseVuln : Vulnerability :=
  { id := "", name := "", description := "", severity := "", cvss := 0
  , cve := "", host := "", port := 0, service := "", url := ""
  , evidence := "", poc := "", references := [], riskScore := 0
  , exploitable := false, metadata := [] }

/-- A critical, exploitable vulnerability with no LLM metadata. -/
def critExploitableVuln : Vulnerability :=
  { baseVuln with severity := "critical", exploitable := true }

/-- A critical, non-exploitable vulnerability whose metadata carries the
float value `llm_confidence = -4.0125`, driving the computed score to an
exact negative tie (`-0.025`, i.e. `-2.5` hundredths). -/
def negTieVuln : Vulnerability :=
  { baseVuln with
      severity := "critical"
      metadata := [("llm_confidence", GoValue.float (-4.0125))] }

/-! ### Concrete registry and module inputs used in closed statements -/

/-- The all-zero scan summary a fresh Scan starts from. -/
def emptySummary : ScanSummary :=
  { totalHosts := 0, aliveHosts := 0, totalPorts := 0, openPorts := 0
  , totalVulns := 0, criticalVulns := 0, highVulns := 0, mediumVulns := 0
  , lowVulns := 0, exploitableVulns := 0, highRiskVulns := 0
  , scanDuration := "", riskScore := 0, modulesExecuted := [] }

/-- The empty Shared Results a fresh Scan starts from. -/
def emptyResults : ScanResults :=
  { hosts := [], vulnerabilities := [], patches := [], bleedingEdge := []
  , summary := emptySummary }

/-- A module output that appends nothing. -/
def emptyOutput : ModuleOutput := { hosts := [], vulns := [], patches := [] }

/-- The mock module of the registry unit test. -/
def testModule : Module :=
  { name := "test-module", description := "Test module for unit testing"
  , category := "stable", author := "Test Author", version := "1.0.0"
  , prereqErr := none, runErr := none, output := emptyOutput }

/-- A module whose run succeeds. -/
def okModule : Module :=
  { name := "ok-module", description := "", category := "stable"
  , author := "", version := "", prereqErr := none, runErr := none
  , output := emptyOutput }

/-- A module whose run fails. -/
def failModule : Module :=
  { okModule with name := "fail-module", runErr := some "target unreachable" }

/-- An all-defaults scan configuration (bleeding edge disabled). -/
def defaultScanConfig : ScanConfig :=
  { targets := [], output := "", reportDir := "", threads := 0, rateLimit := 0
  , deep := false, bleedingEdge := false, stealth := false, aggressive := false
  , noThrottle := false, exclude := [], llmModel := "", temperature := 0
  , generatePatch := false, shadowClone := "", depDrift := false
  , timingMap := false, blueTeam := false }

/-- The default configuration with the bleeding-edge flag raised. -/
def bleedingOnConfig : ScanConfig :=
  { defaultScanConfig with bleedingEdge := true }

/-! ### Scoring phase and summary aggregation (internal/core orchestrator) -/

/-- Orchestrator.updateScanSummary: recomputes the derived summary
counters from the Shared Results, leaving the host and vulnerability
sequences untouched and the fields it does not recompute
(high-risk count, scan duration, overall risk score, audit trail)
as they are. -/
def updateScanSummary (res : ScanResults) : ScanResults :=
  { res with summary :=
    { res.summary with
        totalHosts := res.hosts.length
        aliveHosts := (res.hosts.filter
          (fun host => !host.ports.isEmpty || !host.services.isEmpty)).length
        totalPorts := (res.hosts.map (fun host => host.ports.length)).sum
        openPorts := (res.hosts.map (fun host =>
          (host.ports.filter (fun port => port.state == "open")).length)).sum
        totalVulns := res.vulnerabilities.length
        criticalVulns := (res.vulnerabilities.filter
          (fun vuln => vuln.severity == "critical")).length
        highVulns := (res.vulnerabilities.filter
          (fun vuln => vuln.severity == "high")).length
        mediumVulns := (res.vulnerabilities.filter
          (fun vuln => vuln.severity == "medium")).length
        lowVulns := (res.vulnerabilities.filter
          (fun vuln => vuln.severity == "low")).length
        exploitableVulns := (res.vulnerabilities.filter
          (fun vuln => vuln.exploitable)).length } }

/-- Orchestrator.runScoringPhase: writes each vulnerability's computed
risk score back onto its risk-score field, bumps the high-risk counter
for scores of at least 70, stores the aggregate score, and finishes
with the summary aggregation pass.  The score computation itself is the
pure function `CalculateRiskScore`. -/
def runScoringPhase (ctx : Context) (res : ScanResults) : ScanResults :=
  let scored := res.vulnerabilities.foldl
    (fun (acc : List Vulnerability × ℕ) vuln =>
      let score := CalculateRiskScore vuln ctx
      ( acc.1 ++ [{ vuln with riskScore := score }]
      , if 70 ≤ score then acc.2 + 1 else acc.2 ))
    ([], res.summary.highRiskVulns)
  let res1 := { res with
      vulnerabilities := scored.1
      summary := { res.summary with highRiskVulns := scored.2 } }
  let overallScore := CalculateOverallRiskScore res1.vulnerabilities
  let res2 := { res1 with
      summary := { res1.summary with riskScore := overallScore } }
  updateScanSummary res2

/-! ### The phase pipeline of Orchestrator.Execute -/

/-- Terminal outcome of Orchestrator.Execute: success, a phase failure
wrapped as `fmt.Errorf("phase %s failed: %w", name, err)`, or the
context's own error returned from the between-phases cancellation
check — a constructor distinct from a phase failure. -/
inductive RunOutcome where
  | success
  | phaseFailed (phase : String) (cause : GoErr)
  | cancelled (ctxErr : GoErr)
  deriving DecidableEq

/-- The phase loop of Orchestrator.Execute: phases run in listed order;
a phase error aborts the run carrying the phase name and cause; after a
successful phase the loop polls the cancellation signal (`ctx.Done()`)
and aborts with the context's error if it has been raised, otherwise it
advances to the next phase.  `cancelAfter i` tells whether the signal
has been raised when the check following the i-th phase runs. -/
def runPhases (cancelAfter : ℕ → Bool) (ctxErr : GoErr) :
    List (String × (ScanResults → ScanResults × Option GoErr)) → ℕ →
    ScanResults → ScanResults × RunOutcome
  | [], _, s => (s, RunOutcome.success)
  | (name, fn) :: rest, i, s =>
    match fn s with
    | (s1, some cause) => (s1, RunOutcome.phaseFailed name cause)
    | (s1, none) =>
      if cancelAfter i then (s1, RunOutcome.cancelled ctxErr)
      else runPhases cancelAfter ctxErr rest (i + 1) s1

/-! ### The admission pool of Orchestrator.executeModules -/

/-- Status of one module goroutine with respect to the admission pool
(`sem := make(chan struct{}, 3)`): waiting in the acquire `select`,
running its `run` with a slot held, finished with the slot released, or
bailed out of the admission wait with the context's error without ever
running. -/
inductive ModStatus where
  | waiting
  | running
  | done
  | cancelledOut
  deriving DecidableEq

/-- State of one phase's module executions: the status of each spawned
goroutine and whether the cancellation signal has fired. -/
structure SemState where
  stats : List ModStatus
  ctxDone : Bool
  deriving DecidableEq

/-- The admission-pool capacity: the literal `3` of
`make(chan struct{}, 3)`, taken regardless of the configured thread or
rate limits. -/
def semCapacity (_ : ScanConfig) : ℕ := 3

/-- Number of modules currently holding an admission slot. -/
def runningCount (s : SemState) : ℕ := s.stats.count ModStatus.running

/-- One step of the admission-pool protocol: a waiting goroutine may
acquire a slot only while fewer than `semCapacity` are running; a
running goroutine may finish and release its slot; a waiting goroutine
may leave with the context's error once the signal has fired (the
`case <-gCtx.Done()` arm of the acquire `select`); and the cancellation
signal may fire at any time. -/
inductive SemStep (cfg : ScanConfig) : SemState → SemState → Prop where
  | acquire (s : SemState) (i : ℕ)
      (hi : s.stats[i]? = some ModStatus.waiting)
      (hcap : runningCount s < semCapacity cfg) :
      SemStep cfg s { s with stats := s.stats.set i ModStatus.running }
  | finish (s : SemState) (i : ℕ)
      (hi : s.stats[i]? = some ModStatus.running) :
      SemStep cfg s { s with stats := s.stats.set i ModStatus.done }
  | cancelWait (s : SemState) (i : ℕ)
      (hi : s.stats[i]? = some ModStatus.waiting)
      (hc : s.ctxDone = true) :
      SemStep cfg s { s with stats := s.stats.set i ModStatus.cancelledOut }
  | signal (s : SemState) : SemStep cfg s { s with ctxDone := true }

/-- Multi-step reachability of the admission-pool protocol. -/
def SemReachable (cfg : ScanConfig) : SemState → SemState → Prop :=
  Relation.ReflTransGen (SemStep cfg)

/-- The start of a phase's module execution: n goroutines all waiting
for admission, signal not yet fired. -/
def semInit (n : ℕ) : SemState :=
  { stats := List.replicate n ModStatus.waiting, ctxDone := false }

/-! ### Lemmas -/

lemma base_if_eq_specSeverityWeight (s : String) :
    (if severityWeightsGet s = 0 then (1:ℚ) else severityWeightsGet s)
      = specSeverityWeight s := by
  unfold severityWeightsGet specSeverityWeight
  split_ifs <;> norm_num at *

lemma overall_foldl (vulns : List Vulnerability) (a : ℚ) (b c : ℕ) :
    vulns.foldl (fun (acc : ℚ × ℕ × ℕ) vuln =>
        ( acc.1 + vuln.riskScore
        , if vuln.severity = "critical" then acc.2.1 + 1 else acc.2.1
        , if vuln.severity = "high" then acc.2.2 + 1 else acc.2.2 )) (a, b, c)
    = ( a + (vulns.map Vulnerability.riskScore).sum
      , b + (vulns.filter (fun v => v.severity == "critical")).length
      , c + (vulns.filter (fun v => v.severity == "high")).length ) := by
  induction vulns generalizing a b c with
  | nil => simp
  | cons v t ih =>
    simp only [List.foldl_cons, List.map_cons, List.sum_cons, List.filter_cons, ih]
    by_cases h1 : v.severity = "critical" <;> by_cases h2 : v.severity = "high" <;>
      simp_all [beq_iff_eq, Prod.ext_iff] <;>
      (repeat' constructor) <;> ring_nf

lemma clamp100_eq_min (x : ℚ) : (if x > 100 then (100:ℚ) else x) = min x 100 := by
  rw [min_def]; split_ifs <;> first | rfl | linarith

lemma applyModuleOutput_summary (res : ScanResults) (out : ModuleOutput) :
    (applyModuleOutput res out).summary = res.summary := rfl

lemma runModuleList_spec (mods : List Module) (res : ScanResults) :
    (runModuleList mods res).2 = none ∧
    (runModuleList mods res).1.summary.modulesExecuted
      = res.summary.modulesExecuted
        ++ (mods.filter (fun m => m.runErr.isNone)).map Module.name := by
  induction mods generalizing res with
  | nil => simp [runModuleList]
  | cons m rest ih =>
    cases hm : m.runErr with
    | some e =>
      simp only [runModuleList, executeModule, hm, List.filter_cons,
        Option.isNone_some, Bool.false_eq_true, if_false]
      exact ih _
    | none =>
      simp only [runModuleList, executeModule, hm, List.filter_cons,
        Option.isNone_none, if_pos, List.map_cons]
      refine ⟨(ih _).1, ?_⟩
      rw [(ih _).2]
      simp [applyModuleOutput]

lemma resolveActive_filter (r : Registry) (names : List String) (cat : String) :
    resolveActiveModules r
        (names.filter (fun n => (moduleMapLookup (moduleMapOf r cat) n).isSome))
        cat
      = resolveActiveModules r names cat := by
  unfold resolveActiveModules
  induction names with
  | nil => rfl
  | cons n t ih =>
    by_cases h : (moduleMapLookup (moduleMapOf r cat) n).isSome = true
    · simp [List.filter_cons, h, List.filterMap_cons, ih]
    · have hn : moduleMapLookup (moduleMapOf r cat) n = none :=
        Option.not_isSome_iff_eq_none.mp (by simpa using h)
      simp [List.filter_cons, h, List.filterMap_cons, hn, ih]

lemma resolveActive_prereq (r : Registry) (names : List String) (cat : String)
    (m : Module) (hm : m ∈ resolveActiveModules r names cat) :
    m.prereqErr = none := by
  unfold resolveActiveModules at hm
  rcases List.mem_filterMap.mp hm with ⟨n, -, hf⟩
  cases hl : moduleMapLookup (moduleMapOf r cat) n with
  | none => simp [hl] at hf
  | some mm =>
    simp only [hl] at hf
    by_cases hp : mm.prereqErr.isSome = true
    · rw [if_pos hp] at hf
      exact absurd hf (by simp)
    · rw [if_neg hp] at hf
      have hmm := Option.some.inj hf
      subst hmm
      exact Option.not_isSome_iff_eq_none.mp hp

lemma getModule_append_self (r : Registry) (k : String) (v : Module)
    (h : GetModule r k = none) : GetModule (r ++ [(k, v)]) k = some v := by
  unfold GetModule at *
  rw [List.find?_append]
  rw [Option.map_eq_none'.mp h]
  simp [List.find?]

lemma getModule_append_other (r : Registry) (k : String) (v : Module)
    (n : String) (h : n ≠ k) :
    GetModule (r ++ [(k, v)]) n = GetModule r n := by
  unfold GetModule
  rw [List.find?_append]
  have hk : List.find? (fun p => p.1 == n) [(k, v)] = none := by
    simp [List.find?, beq_eq_false_iff_ne.mpr (Ne.symm h)]
  rw [hk]
  cases List.find? (fun p => p.1 == n) r <;> rfl

lemma updateScanSummary_highRisk (res : ScanResults) :
    (updateScanSummary res).summary.highRiskVulns
      = res.summary.highRiskVulns := rfl

lemma updateScanSummary_vulns (res : ScanResults) :
    (updateScanSummary res).vulnerabilities = res.vulnerabilities := rfl

lemma scoring_foldl (vulns : List Vulnerability) (ctx : Context)
    (acc : List Vulnerability) (n : ℕ) :
    vulns.foldl
      (fun (acc : List Vulnerability × ℕ) vuln =>
        let score := CalculateRiskScore vuln ctx
        ( acc.1 ++ [{ vuln with riskScore := score }]
        , if 70 ≤ score then acc.2 + 1 else acc.2 )) (acc, n)
    = ( acc ++ vulns.map
          (fun v => { v with riskScore := CalculateRiskScore v ctx })
      , n + (vulns.filter
          (fun v => decide (70 ≤ CalculateRiskScore v ctx))).length ) := by
  induction vulns generalizing acc n with
  | nil => simp
  | cons v t ih =>
    simp only [List.foldl_cons, List.map_cons, List.filter_cons, ih]
    by_cases h : 70 ≤ CalculateRiskScore v ctx <;>
      simp [h, List.append_assoc, Prod.ext_iff] <;> omega

lemma count_set_le_succ (l : List ModStatus) (i : ℕ) (b x : ModStatus) :
    (l.set i b).count x ≤ l.count x + 1 := by
  induction l generalizing i with
  | nil => simp
  | cons h t ih =>
    cases i with
    | zero =>
      simp only [List.set_cons_zero, List.count_cons]
      split_ifs <;> simp_all <;> omega
    | succ j =>
      simp only [List.set_cons_succ, List.count_cons]
      have := ih j
      split_ifs <;> omega

lemma count_set_le_of_ne (l : List ModStatus) (i : ℕ) (b x : ModStatus)
    (hbx : b ≠ x) : (l.set i b).count x ≤ l.count x := by
  induction l generalizing i with
  | nil => simp
  | cons h t ih =>
    cases i with
    | zero =>
      have hbx' : (b == x) = false := beq_eq_false_iff_ne.mpr hbx
      simp only [List.set_cons_zero, List.count_cons, hbx', Bool.false_eq_true,
        if_false]
      split_ifs <;> omega
    | succ j =>
      simp only [List.set_cons_succ, List.count_cons]
      have := ih j
      split_ifs <;> omega

lemma semStep_running_le (cfg : ScanConfig) {s t : SemState}
    (h : SemStep cfg s t) (hs : runningCount s ≤ 3) : runningCount t ≤ 3 := by
  cases h with
  | acquire i hi hcap =>
    have h1 := count_set_le_succ s.stats i ModStatus.running ModStatus.running
    simp only [runningCount, semCapacity] at *
    omega
  | finish i hi =>
    have h1 := count_set_le_of_ne s.stats i ModStatus.done ModStatus.running
      (by simp)
    simp only [runningCount] at *
    omega
  | cancelWait i hi hc =>
    have h1 := count_set_le_of_ne s.stats i ModStatus.cancelledOut
      ModStatus.running (by simp)
    simp only [runningCount] at *
    omega
  | signal =>
    simpa [runningCount] using hs

lemma reach_running_le (cfg : ScanConfig) (n : ℕ) (s : SemState)
    (h : SemReachable cfg (semInit n) s) : runningCount s ≤ 3 := by
  induction h with
  | refl => simp [semInit, runningCount, List.count_replicate]
  | tail hab hbc ih => exact semStep_running_le cfg hbc ih

lemma semStep_length (cfg : ScanConfig) {s t : SemState}
    (h : SemStep cfg s t) : t.stats.length = s.stats.length := by
  cases h <;> simp

lemma semStep_ran_persist (cfg : ScanConfig) {s t : SemState}
    (h : SemStep cfg s t) (i : ℕ)
    (hi : s.stats[i]? = some ModStatus.running ∨
          s.stats[i]? = some ModStatus.done) :
    t.stats[i]? = some ModStatus.running ∨
    t.stats[i]? = some ModStatus.done := by
  cases h with
  | acquire j hj hcap =>
    by_cases hij : j = i
    · subst hij; rw [hj] at hi; simp at hi
    · simpa [List.getElem?_set_ne hij] using hi
  | finish j hj =>
    by_cases hij : j = i
    · subst hij
      right
      rcases List.getElem?_eq_some.mp hj with ⟨hlt, -⟩
      simpa using List.getElem?_set_eq_of_lt ModStatus.done hlt
    · simpa [List.getElem?_set_ne hij] using hi
  | cancelWait j hj hc =>
    by_cases hij : j = i
    · subst hij; rw [hj] at hi; simp at hi
    · simpa [List.getElem?_set_ne hij] using hi
  | signal => simpa using hi

lemma semStep_waiting_release (cfg : ScanConfig) {s t : SemState}
    (h : SemStep cfg s t) (i : ℕ)
    (hw : s.stats[i]? = some ModStatus.waiting)
    (hch : t.stats[i]? ≠ some ModStatus.waiting) :
    (t.stats[i]? = some ModStatus.running ∧ runningCount s < 3) ∨
    (t.stats[i]? = some ModStatus.cancelledOut ∧ s.ctxDone = true) := by
  rcases List.getElem?_eq_some.mp hw with ⟨hlt, -⟩
  cases h with
  | acquire j hj hcap =>
    by_cases hij : j = i
    · subst hij
      left
      refine ⟨?_, by simpa [semCapacity] using hcap⟩
      simpa using List.getElem?_set_eq_of_lt ModStatus.running hlt
    · have : ({ s with stats := s.stats.set j ModStatus.running }).stats[i]?
          = some ModStatus.waiting := by
        simpa [List.getElem?_set_ne hij] using hw
      exact absurd this hch
  | finish j hj =>
    by_cases hij : j = i
    · subst hij; rw [hj] at hw; simp at hw
    · have : ({ s with stats := s.stats.set j ModStatus.done }).stats[i]?
          = some ModStatus.waiting := by
        simpa [List.getElem?_set_ne hij] using hw
      exact absurd this hch
  | cancelWait j hj hc =>
    by_cases hij : j = i
    · subst hij
      right
      refine ⟨?_, hc⟩
      simpa using List.getElem?_set_eq_of_lt ModStatus.cancelledOut hlt
    · have : ({ s with stats := s.stats.set j ModStatus.cancelledOut }).stats[i]?
          = some ModStatus.waiting := by
        simpa [List.getElem?_set_ne hij] using hw
      exact absurd this hch
  | signal => exact absurd (by simpa using hw) hch

lemma reach_ran_persist (cfg : ScanConfig) {t s : SemState}
    (h : SemReachable cfg t s) (i : ℕ)
    (hi : t.stats[i]? = some ModStatus.running ∨
          t.stats[i]? = some ModStatus.done) :
    s.stats[i]? = some ModStatus.running ∨
    s.stats[i]? = some ModStatus.done := by
  induction h with
  | refl => exact hi
  | tail hab hbc ih => exact semStep_ran_persist cfg hbc i ih

lemma reach_length (cfg : ScanConfig) {t s : SemState}
    (h : SemReachable cfg t s) : s.stats.length = t.stats.length := by
  induction h with
  | refl => rfl
  | tail hab hbc ih => rw [semStep_length cfg hbc, ih]

lemma reach_cancelled_never_ran (cfg : ScanConfig) {t s : SemState}
    (h : SemReachable cfg t s) (i : ℕ)
    (hs : s.stats[i]? = some ModStatus.cancelledOut) :
    t.stats[i]? = some ModStatus.waiting ∨
    t.stats[i]? = some ModStatus.cancelledOut := by
  cases hv : t.stats[i]? with
  | none =>
    have hlen : s.stats.length = t.stats.length := reach_length cfg h
    have hge : t.stats.length ≤ i := by
      by_contra hlt
      push_neg at hlt
      rw [List.getElem?_eq_getElem hlt] at hv
      simp at hv
    have hsnone : s.stats[i]? = none := List.getElem?_eq_none (by omega)
    rw [hsnone] at hs
    simp at hs
  | some v =>
    cases v with
    | waiting => exact Or.inl rfl
    | cancelledOut => exact Or.inr rfl
    | running =>
      have hp := reach_ran_persist cfg h i (Or.inl hv)
      rcases hp with h1 | h1 <;> rw [h1] at hs <;> simp at hs
    | done =>
      have hp := reach_ran_persist cfg h i (Or.inr hv)
      rcases hp with h1 | h1 <;> rw [h1] at hs <;> simp at hs

/-! ### Claim theorems -/

/-- C1 (counterexample): the per-vulnerability score is NOT always the
claimed formula with ties rounded up (towards `+∞`).  With severity
`critical`, not exploitable, no drift context, and metadata
`llm_confidence = -4.0125`, the engine computes
`10 * 1 * 1 * (0.8 - 0.8025) = -0.025` and `math.Round` sends the tie
`-2.5` hundredths away from zero to `-0.03`, while ties-rounded-up
yields `-0.02`. -/
theorem riskScore_ties_up_counterexample :
    CalculateRiskScore negTieVuln [] = -3/100 ∧
    specRiskScoreTiesUp negTieVuln [] = -1/50 ∧
    CalculateRiskScore negTieVuln [] ≠ specRiskScoreTiesUp negTieVuln [] := by
  refine ⟨?_, ?_, ?_⟩
  · norm_num [CalculateRiskScore, negTieVuln, baseVuln, severityWeightsGet,
      exploitWeight, llmWeight, driftWeight, mapGet, round2, goRound]
    rw [show (-3 : ℚ) = ((-3 : ℤ) : ℚ) by norm_num, Int.ceil_intCast]
    norm_num
  · norm_num [specRiskScoreTiesUp, negTieVuln, baseVuln, specSeverityWeight,
      mapGet, roundTiesUp2]
  · norm_num [CalculateRiskScore, specRiskScoreTiesUp, negTieVuln, baseVuln,
      severityWeightsGet, specSeverityWeight, exploitWeight, llmWeight,
      driftWeight, mapGet, round2, goRound, roundTiesUp2]
    rw [show (-3 : ℚ) = ((-3 : ℤ) : ℚ) by norm_num, Int.ceil_intCast]
    norm_num

/-- C1 (amended): for every vulnerability, the per-vulnerability risk
score equals severityWeight(severity) (critical=10.0, high=7.5,
medium=5.0, low=2.5, info=1.0, other=1.0), times 1.5 if exploitable else
1.0, times `1.0 + drift*0.2` with drift read as a float from the scan
context key "supply_chain_drift" (0.0 if absent), times
`0.8 + confidence*0.2` when the metadata carries a float
"llm_confidence" else 1.0, clamped so results over 100 become exactly
100, then rounded to 2 decimal places with ties rounded AWAY FROM ZERO
(which coincides with ties rounded up for every nonnegative score); in
particular severity=critical, exploitable=true, no drift, no LLM
metadata yields exactly 15.0. -/
theorem riskScore_matches_spec :
    (∀ (vuln : Vulnerability) (ctx : Context),
        CalculateRiskScore vuln ctx = specRiskScore vuln ctx) ∧
    CalculateRiskScore critExploitableVuln [] = 15 := by
  constructor
  · intro vuln ctx
    have hbase := base_if_eq_specSeverityWeight vuln.severity
    simp only [CalculateRiskScore, specRiskScore, exploitWeight, driftWeight,
      llmWeight, hbase]
    rcases mapGet ctx "supply_chain_drift" with _ | dv
    · rcases mapGet vuln.metadata "llm_confidence" with _ | lv
      · norm_num
      · cases lv <;> norm_num
    · cases dv <;> rcases mapGet vuln.metadata "llm_confidence" with _ | lv <;>
        (try cases lv) <;> norm_num
  · norm_num [CalculateRiskScore, critExploitableVuln, baseVuln,
      severityWeightsGet, exploitWeight, llmWeight, driftWeight, mapGet,
      round2, goRound]

/-- C2: the aggregate scan-level risk score is exactly 0 on an empty
vulnerability list, and otherwise equals the mean of the risk-score
fields plus 5.0 per "critical" severity label plus 2.0 per "high"
severity label (counting by label, independent of numeric score),
clamped at 100 and rounded to 2 decimal places. -/
theorem overallRiskScore_matches_spec :
    (∀ vulns : List Vulnerability,
        CalculateOverallRiskScore vulns = specOverallRiskScore vulns) ∧
    CalculateOverallRiskScore [] = 0 := by
  constructor
  · intro vulns
    cases vulns with
    | nil => simp [CalculateOverallRiskScore, specOverallRiskScore]
    | cons v t =>
      simp only [CalculateOverallRiskScore, specOverallRiskScore]
      rw [overall_foldl, clamp100_eq_min]
      simp only [List.length_cons, Nat.succ_ne_zero, if_false, reduceCtorEq,
        List.cons_ne_nil, if_neg, not_false_iff]
      congr 1
      push_cast
      ring
  · simp [CalculateOverallRiskScore]

/-- C3: a module whose run returns an error does not abort the phase
(the sequentialized errgroup loop still returns `nil`), its name is
excluded from the "modules executed" audit trail, and every module
whose run succeeds has its name appended to that trail: the final trail
is exactly the initial trail extended by the names of the modules whose
run returned `nil`, in execution order. -/
theorem module_failure_does_not_abort (mods : List Module) (res : ScanResults) :
    (runModuleList mods res).2 = none ∧
    (runModuleList mods res).1.summary.modulesExecuted
      = res.summary.modulesExecuted
        ++ (mods.filter (fun m => m.runErr.isNone)).map Module.name ∧
    (∀ m ∈ mods, m.runErr = none →
      m.name ∈ (runModuleList mods res).1.summary.modulesExecuted) ∧
    (∀ m ∈ mods, m.runErr ≠ none →
      m.name ∉ res.summary.modulesExecuted →
      (∀ m' ∈ mods, m'.runErr = none → m'.name ≠ m.name) →
      m.name ∉ (runModuleList mods res).1.summary.modulesExecuted) := by
  obtain ⟨h1, h2⟩ := runModuleList_spec mods res
  refine ⟨h1, h2, ?_, ?_⟩
  · intro m hm hrun
    rw [h2]
    refine List.mem_append_right _ ?_
    exact List.mem_map_of_mem _ (List.mem_filter.mpr ⟨hm, by simp [hrun]⟩)
  · intro m hm hrun hinit hdistinct
    rw [h2]
    intro hmem
    rcases List.mem_append.mp hmem with h | h
    · exact hinit h
    · rcases List.mem_map.mp h with ⟨m', hm', hname⟩
      have hm'runs : m'.runErr = none := by
        have := (List.mem_filter.mp hm').2
        simpa [Option.isNone_iff_eq_none] using this
      exact hdistinct m' (List.mem_filter.mp hm').1 hm'runs hname

/-- C3 witness: with one failing and one succeeding module, the phase
loop returns `nil`, the succeeding module's name is in the audit trail
and the failing module's name is not. -/
theorem module_failure_witness :
    (runModuleList [failModule, okModule] emptyResults).2 = none ∧
    "ok-module" ∈
      (runModuleList [failModule, okModule] emptyResults).1.summary.modulesExecuted ∧
    "fail-module" ∉
      (runModuleList [failModule, okModule] emptyResults).1.summary.modulesExecuted := by
  have h := module_failure_does_not_abort [failModule, okModule] emptyResults
  refine ⟨h.1, ?_, ?_⟩
  · exact h.2.2.1 okModule (by simp) rfl
  · exact h.2.2.2 failModule (by simp) (by simp [failModule, okModule])
      (by simp [emptyResults, emptySummary]) (by decide)

/-- C6: registration fails fatally exactly when the module's name is
empty or already present; otherwise the module is inserted into the
name-to-module mapping, where lookup by name (a pure read returning the
module and a found flag) finds it without disturbing other names. -/
theorem register_getModule_spec (r : Registry) (m : Module) :
    ((∃ msg, Register r m = RegisterResult.fatal msg) ↔
      m.name = "" ∨ (GetModule r m.name).isSome = true) ∧
    (m.name ≠ "" → GetModule r m.name = none →
      Register r m = RegisterResult.ok (r ++ [(m.name, m)]) ∧
      GetModule (r ++ [(m.name, m)]) m.name = some m ∧
      ∀ n, n ≠ m.name → GetModule (r ++ [(m.name, m)]) n = GetModule r n) := by
  constructor
  · constructor
    · rintro ⟨msg, hmsg⟩
      simp only [Register] at hmsg
      by_cases h1 : m.name = ""
      · exact Or.inl h1
      · rw [if_neg h1] at hmsg
        by_cases h2 : (GetModule r m.name).isSome = true
        · exact Or.inr h2
        · rw [if_neg h2] at hmsg
          exact absurd hmsg (by simp)
    · intro h
      simp only [Register]
      rcases h with h1 | h2
      · rw [if_pos h1]; exact ⟨_, rfl⟩
      · by_cases h1 : m.name = ""
        · rw [if_pos h1]; exact ⟨_, rfl⟩
        · rw [if_neg h1, if_pos h2]; exact ⟨_, rfl⟩
  · intro h1 h2
    refine ⟨?_, getModule_append_self r m.name m h2,
      fun n hn => getModule_append_other r m.name m n hn⟩
    simp only [Register]
    rw [if_neg h1, if_neg (by simp [h2])]

/-- C6 witness: registering the registry test's mock module into an
empty registry succeeds and the module is retrievable by name. -/
theorem register_getModule_witness :
    Register [] testModule = RegisterResult.ok [("test-module", testModule)] ∧
    GetModule [("test-module", testModule)] "test-module" = some testModule := by
  have h := (register_getModule_spec [] testModule).2 (by decide) rfl
  exact ⟨h.1, h.2.1⟩

/-- C7: requested module names with no registered implementation in the
phase's category are silently dropped (restricting the name list to the
resolvable names does not change the phase's behaviour at all); every
module surviving resolution passed its prerequisites check (failures
are excluded without failing the phase); the phase never returns an
error; and when zero modules survive the filtering the phase is a no-op
succeeding with the Shared Results untouched. -/
theorem module_filtering_spec (r : Registry) (names : List String)
    (category : String) (res : ScanResults) :
    executeModules r
        (names.filter
          (fun n => (moduleMapLookup (moduleMapOf r category) n).isSome))
        category res
      = executeModules r names category res ∧
    (∀ m ∈ resolveActiveModules r names category, m.prereqErr = none) ∧
    (executeModules r names category res).2 = none ∧
    (resolveActiveModules r names category = [] →
      executeModules r names category res = (res, none)) := by
  refine ⟨?_, fun m hm => resolveActive_prereq r names category m hm, ?_, ?_⟩
  · unfold executeModules
    rw [resolveActive_filter]
  · simp only [executeModules]
    split_ifs with h
    · rfl
    · exact (runModuleList_spec _ _).1
  · intro h
    simp only [executeModules]
    simp [h]

/-- C7 witness: a request naming only an unregistered module resolves
to zero modules, and the phase succeeds leaving the results unchanged. -/
theorem module_filtering_witness :
    (executeModules [] ["ghost"] "stable" emptyResults).2 = none ∧
    executeModules [] ["ghost"] "stable" emptyResults = (emptyResults, none) := by
  have h := module_filtering_spec [] ["ghost"] "stable" emptyResults
  exact ⟨h.2.2.1, h.2.2.2 rfl⟩

/-- C8: the BleedingEdge phase is an immediate successful no-op running
no modules whenever the configuration's bleeding-edge flag is false,
and runs its module list (through the ordinary module-execution path)
exactly when the flag is true — the decision is taken once for the
whole phase. -/
theorem bleedingEdge_phase_conditional (r : Registry) (config : ScanConfig)
    (res : ScanResults) :
    (config.bleedingEdge = false →
      runBleedingEdgePhase r config res = (res, none)) ∧
    (config.bleedingEdge = true →
      runBleedingEdgePhase r config res
        = executeModules r bleedingModules "bleeding-edge" res) := by
  constructor <;> intro h <;> simp [runBleedingEdgePhase, h]

/-- C8 witness: with the flag down the phase is a no-op on the empty
registry and results; with the flag up it equals the module-execution
path on the bleeding-edge module list. -/
theorem bleedingEdge_phase_witness :
    runBleedingEdgePhase [] defaultScanConfig emptyResults
      = (emptyResults, none) ∧
    runBleedingEdgePhase [] bleedingOnConfig emptyResults
      = executeModules [] bleedingModules "bleeding-edge" emptyResults := by
  exact ⟨(bleedingEdge_phase_conditional [] defaultScanConfig emptyResults).1 rfl,
         (bleedingEdge_phase_conditional [] bleedingOnConfig emptyResults).2 rfl⟩

/-- C9: the scoring phase increments the high-risk summary counter by
exactly one for each vulnerability whose computed risk score is at
least 70 (leaving it unchanged for lower scores), as a side effect of
the phase: the counter ends at its initial value plus the count of
vulnerabilities scoring at least 70, and every vulnerability's
risk-score field is set to the value of the pure score computation
`CalculateRiskScore`, which itself returns only a number and mutates
nothing. -/
theorem scoring_phase_highRisk_count (ctx : Context) (res : ScanResults) :
    (runScoringPhase ctx res).summary.highRiskVulns
      = res.summary.highRiskVulns
        + (res.vulnerabilities.filter
            (fun v => decide (70 ≤ CalculateRiskScore v ctx))).length ∧
    (runScoringPhase ctx res).vulnerabilities
      = res.vulnerabilities.map
          (fun v => { v with riskScore := CalculateRiskScore v ctx }) := by
  simp only [runScoringPhase, scoring_foldl]
  constructor
  · rw [updateScanSummary_highRisk]
  · rw [updateScanSummary_vulns]
    simp

/-- C10: the post-scoring summary aggregation pass is idempotent —
running `updateScanSummary` twice on any Shared Results value produces
exactly the same value (hence the same recomputed counters) as running
it once. -/
theorem updateScanSummary_idempotent (res : ScanResults) :
    updateScanSummary (updateScanSummary res) = updateScanSummary res := rfl

/-- C4: in the phase loop, a phase whose control logic returns an error
aborts the remainder of the run with an outcome carrying that phase's
name and the underlying cause; a successful phase advances the pipeline
to the next phase, except that a raised cancellation signal at the
between-phases check aborts immediately with the context's error, an
outcome distinct from a phase failure. -/
theorem pipeline_phase_transitions (cancelAfter : ℕ → Bool) (ctxErr : GoErr)
    (name : String) (fn : ScanResults → ScanResults × Option GoErr)
    (rest : List (String × (ScanResults → ScanResults × Option GoErr)))
    (i : ℕ) (s : ScanResults) :
    (∀ cause s1, fn s = (s1, some cause) →
      runPhases cancelAfter ctxErr ((name, fn) :: rest) i s
        = (s1, RunOutcome.phaseFailed name cause)) ∧
    (∀ s1, fn s = (s1, none) → cancelAfter i = true →
      runPhases cancelAfter ctxErr ((name, fn) :: rest) i s
        = (s1, RunOutcome.cancelled ctxErr)) ∧
    (∀ s1, fn s = (s1, none) → cancelAfter i = false →
      runPhases cancelAfter ctxErr ((name, fn) :: rest) i s
        = runPhases cancelAfter ctxErr rest (i + 1) s1) ∧
    (∀ n c e, RunOutcome.phaseFailed n c ≠ RunOutcome.cancelled e) := by
  refine ⟨?_, ?_, ?_, ?_⟩
  · intro cause s1 h
    simp [runPhases, h]
  · intro s1 h hc
    simp [runPhases, h, hc]
  · intro s1 h hc
    simp [runPhases, h, hc]
  · intro n c e
    simp

/-- C4 witness: a failing Discovery phase aborts with the phase name
and cause, and a raised cancellation signal after a successful phase
aborts with the context's error. -/
theorem pipeline_phase_transitions_witness :
    runPhases (fun _ => false) "context canceled"
        [("Discovery", fun s => (s, some "no targets specified"))] 0
        emptyResults
      = (emptyResults,
         RunOutcome.phaseFailed "Discovery" "no targets specified") ∧
    runPhases (fun _ => true) "context canceled"
        [("Discovery", fun s => (s, none))] 0 emptyResults
      = (emptyResults, RunOutcome.cancelled "context canceled") := by
  have h1 := (pipeline_phase_transitions (fun _ => false) "context canceled"
    "Discovery" (fun s => (s, some "no targets specified")) [] 0
    emptyResults).1 "no targets specified" emptyResults rfl
  have h2 := (pipeline_phase_transitions (fun _ => true) "context canceled"
    "Discovery" (fun s => (s, none)) [] 0 emptyResults).2.1
    emptyResults rfl rfl
  exact ⟨h1, h2⟩

/-- C5: in every reachable state of a phase's admission-pool protocol,
the pool capacity is the constant 3 whatever the configuration, at most
3 modules hold a slot and run simultaneously, a waiting module leaves
the waiting state only by acquiring a slot while one is free (fewer
than 3 running) or by the cancellation signal having fired (returning
the context's error), and a module that bailed out cancelled was never
running at any earlier point. -/
theorem admission_pool_bound (cfg : ScanConfig) (n : ℕ) (s : SemState)
    (h : SemReachable cfg (semInit n) s) :
    semCapacity cfg = 3 ∧
    runningCount s ≤ 3 ∧
    (∀ t : SemState, SemStep cfg s t → ∀ i : ℕ,
      s.stats[i]? = some ModStatus.waiting →
      t.stats[i]? ≠ some ModStatus.waiting →
      (t.stats[i]? = some ModStatus.running ∧ runningCount s < 3) ∨
      (t.stats[i]? = some ModStatus.cancelledOut ∧ s.ctxDone = true)) ∧
    (∀ i : ℕ, s.stats[i]? = some ModStatus.cancelledOut →
      ∀ t : SemState, SemReachable cfg t s →
        t.stats[i]? = some ModStatus.waiting ∨
        t.stats[i]? = some ModStatus.cancelledOut) := by
  refine ⟨rfl, reach_running_le cfg n s h, ?_, ?_⟩
  · intro t hstep i hw hch
    exact semStep_waiting_release cfg hstep i hw hch
  · intro i hi t ht
    exact reach_cancelled_never_ran cfg ht i hi

/-- C5 witness: at the initial state of a four-module phase (reachable
by the empty step sequence) the capacity is 3 and no module holds a
slot. -/
theorem admission_pool_witness :
    semCapacity defaultScanConfig = 3 ∧ runningCount (semInit 4) ≤ 3 := by
  have h := admission_pool_bound defaultScanConfig 4 (semInit 4)
    Relation.ReflTransGen.refl
  exact ⟨h.1, h.2.1⟩

end TraceHawkX
